import Mathlib

/-!
# Verification of the invenio-requests request action engine

A shallow embedding of the request aggregate, its dispatch surface, the
requests service layer and the user-moderation workflow service, translated
from the repository sources:

* `invenio_requests/records/api.py` (`Request.is_expired`, `Request.get_action`,
  `Request.can_execute_action`, `Request.execute_action`, `Request.get_record`),
* `invenio_requests/services/requests/service.py` (`RequestsService._get_request`,
  `RequestsService.execute_action`, `RequestsService.delete`),
* `invenio_requests/services/user_moderation/service.py`
  (`UserModerationRequestService.moderate`, `.request_moderation`,
  `.search_moderation_requests`).

Parts of the engine that live outside these modules (the action classes, the
entity-reference resolver, the creation path taking receiver/creator/topic,
the search and record-deletion collaborators) are modelled from the spec and
are marked as such in their doc comments.

Python exceptions are embedded as an explicit error type `Err`; fallible
operations return `Except Err _`.  Services are state-passing: a service call
returns the new store state together with its result, so "no side effect on
error" is expressible as the state coming back unchanged.
-/

namespace InvenioRequests

/-- The embedded error taxonomy: each constructor corresponds to one Python
exception class raised by the embedded code (`genericException` stands for the
bare `raise Exception` in `RequestsService.execute_action`, and
`typeErrorNaiveAware` for the `TypeError` Python raises when comparing naive
and timezone-aware datetimes). -/
inductive Err where
  | noSuchActionError (action : String)
  | actionNotExecutableError (action : String)
  | genericException
  | permissionDeniedError (perm : String)
  | invalidCreatorError
  | unknownTypeError (typeId : String)
  | noResultFound
  | multipleResultsFound
  | noneModelError
  | typeErrorNaiveAware
  deriving DecidableEq, Repr

/-- An entity reference: one `kind` key mapped to one identifier, e.g.
`{"user": "user-42"}`. -/
structure EntityRef where
  kind : String
  identifier : String
  deriving DecidableEq, Repr

/-- The closed status enumeration of a request. -/
inductive RequestStatus where
  | created
  | submitted
  | accepted
  | declined
  | cancelled
  | expired
  deriving DecidableEq, Repr

/-- An identity (the acting principal), reduced to its user id. -/
structure Identity where
  userId : String
  deriving DecidableEq, Repr

/-- `invenio_access.permissions.system_user_id`: the privileged system actor. -/
def system_user_id : String := "system"

/-- `invenio_access.permissions.system_identity`. -/
def system_identity : Identity := ⟨system_user_id⟩

/-! ## Datetimes

A Python `datetime` is embedded as a wall-clock value on a single linear
scale (`wall`) together with an optional UTC offset (`tz`); `tz = none` is a
naive datetime.  Comparing two aware datetimes compares their UTC instants;
comparing two naive datetimes compares wall values; comparing mixed raises
`TypeError`. -/

/-- A Python `datetime`: wall-clock value plus optional UTC offset. -/
structure PyDateTime where
  wall : Int
  tz : Option Int
  deriving DecidableEq, Repr

/-- Python `<` on datetimes: naive/naive compares wall values, aware/aware
compares UTC instants (wall minus offset), mixed raises `TypeError`. -/
def pyLt (a b : PyDateTime) : Except Err Bool :=
  match a.tz, b.tz with
  | none, none => .ok (decide (a.wall < b.wall))
  | some ta, some tb => .ok (decide (a.wall - ta < b.wall - tb))
  | _, _ => .error .typeErrorNaiveAware

/-- The UTC instant a datetime denotes when read the way the code reads it:
an aware datetime is shifted by its offset, a naive one is taken as UTC
(the code compares it against naive `datetime.utcnow()`). -/
def PyDateTime.instant (d : PyDateTime) : Int :=
  d.wall - (d.tz.getD 0)

/-- A request record, with the persisted fields of
`{id, external_id, request_type_id, status, created_by, receiver, topic,
expires_at, is_deleted}`. -/
structure Request where
  id : String
  external_id : Option String
  request_type_id : String
  status : RequestStatus
  created_by : Option EntityRef
  receiver : Option EntityRef
  topic : Option EntityRef
  expires_at : Option PyDateTime
  is_deleted : Bool
  deriving DecidableEq, Repr

/-- `Request.is_expired` (records/api.py): `False` when `expires_at` is unset;
otherwise `now = datetime.utcnow()` (naive UTC), and when `expires_at` is
timezone-aware, `now` is replaced by an aware UTC datetime before the `<`
comparison.  `nowUtc` is the current UTC instant. -/
def Request.is_expired (r : Request) (nowUtc : Int) : Except Err Bool :=
  match r.expires_at with
  | none => .ok false
  | some d =>
    let now : PyDateTime := ⟨nowUtc, none⟩
    let now := if d.tz.isSome then { now with tz := some 0 } else now
    pyLt d now

/-- Specification-side reading of expiry: the request is expired iff
`expires_at` is set and its (timezone-normalized) instant is strictly before
the current UTC instant. -/
def isExpiredSpec (r : Request) (nowUtc : Int) : Bool :=
  match r.expires_at with
  | none => false
  | some d => decide (d.instant < nowUtc)

/-! ## Request types and actions -/

/-- Modelled from the spec: an action descriptor declares its allowed
source-status set, the destination status of its transition, and an
identity-authorization predicate specific to the action; the repository's
action classes (`invenio_requests/customizations`) are not among the sources
at hand. -/
structure ActionDescriptor where
  source_statuses : List RequestStatus
  dest : RequestStatus
  authorized : Request → Identity → Bool

/-- Modelled from the spec: `can_execute` holds iff the request's current
status is in the action's allowed source-status set and the
identity-authorization predicate holds; it never raises for a
merely-inapplicable state. -/
def ActionDescriptor.can_execute (a : ActionDescriptor) (r : Request) (i : Identity) : Bool :=
  a.source_statuses.contains r.status && a.authorized r i

/-- Modelled from the spec: `execute` fails with `ActionNotExecutableError`
when invoked while `can_execute` is false, and otherwise performs exactly the
declared status transition on the bound request. -/
def ActionDescriptor.execute (a : ActionDescriptor) (name : String) (r : Request)
    (i : Identity) : Except Err Request :=
  if a.can_execute r i then .ok { r with status := a.dest } else
    .error (.actionNotExecutableError name)

/-- A request type descriptor: its registry key and its table of available
actions (action name to action descriptor). -/
structure RequestType where
  type_id : String
  available_actions : List (String × ActionDescriptor)

/-- The process-wide request type registry, as an association list populated
at bootstrap. -/
def Registry := List (String × RequestType)

/-- Registry lookup by type id. -/
def lookupType (reg : Registry) (typeId : String) : Option RequestType :=
  List.lookup typeId reg

/-- `Request.get_action` (records/api.py): index the request type's
`available_actions` by the action name, converting the lookup failure
(`KeyError`) into `NoSuchActionError`; on success the registered constructor
is applied to the request, here returning the descriptor to be interpreted
against the bound request. -/
def Request.get_action (reg : Registry) (r : Request) (action_name : String) :
    Except Err ActionDescriptor :=
  match lookupType reg r.request_type_id with
  | none => .error (.unknownTypeError r.request_type_id)
  | some rt =>
    match List.lookup action_name rt.available_actions with
    | some a => .ok a
    | none => .error (.noSuchActionError action_name)

/-- `Request.can_execute_action` (records/api.py): returns
`get_action(action_name).can_execute(identity)`, so lookup errors propagate. -/
def Request.can_execute_action (reg : Registry) (r : Request) (action_name : String)
    (i : Identity) : Except Err Bool :=
  (r.get_action reg action_name).map (fun a => a.can_execute r i)

/-- `Request.execute_action` (records/api.py): returns
`get_action(action_name).execute(identity)`, so lookup errors propagate and
the executability check is the action's own. -/
def Request.execute_action (reg : Registry) (r : Request) (action_name : String)
    (i : Identity) : Except Err Request :=
  (r.get_action reg action_name).bind (fun a => a.execute action_name r i)

/-! ## Record retrieval

The database is embedded as a list of request rows; SQLAlchemy's
`Query.one()` raises `NoResultFound` on an empty result and
`MultipleResultsFound` on an ambiguous one. -/

/-- SQLAlchemy `Query.one()` over the rows a query matched. -/
def queryOne (l : List Request) : Except Err Request :=
  match l with
  | [] => .error .noResultFound
  | [r] => .ok r
  | _ :: _ :: _ => .error .multipleResultsFound

/-- The rows matched by `query.filter_by(external_id=str(id_))`, with the
`is_deleted != True` filter added unless `with_deleted`. -/
def extQuery (db : List Request) (id_ : String) (with_deleted : Bool) : List Request :=
  let q := db.filter (fun r => r.external_id == some id_)
  if with_deleted then q else q.filter (fun r => !r.is_deleted)

/-- The rows matched by `query.filter_by(id=id_)`, with the
`is_deleted != True` filter added unless `with_deleted`. -/
def intQuery (db : List Request) (id_ : String) (with_deleted : Bool) : List Request :=
  let q := db.filter (fun r => r.id == id_)
  if with_deleted then q else q.filter (fun r => !r.is_deleted)

/-- `Request.get_record` (records/api.py): query by `external_id = str(id_)`
first; when `.one()` raises (`NoResultFound` or `MultipleResultsFound`, e.g.
when the stored `external_id` is `None`), fall back to querying by the
internal primary-key `id`, applying the same `is_deleted` filter in both
paths. -/
def Request.get_record (db : List Request) (id_ : String) (with_deleted : Bool) :
    Except Err Request :=
  match queryOne (extQuery db id_ with_deleted) with
  | .ok m => .ok m
  | .error _ => queryOne (intQuery db id_ with_deleted)

/-- `RequestsService._get_request` (services/requests/service.py): query by
`external_id = str(id_)` with `.one()`; on `NoResultFound` or
`MultipleResultsFound` fall back to `query.get(id_)`, which yields `None`
when absent (and building a request from a `None` model then fails). -/
def _get_request (db : List Request) (id_ : String) : Except Err Request :=
  match queryOne (db.filter (fun r => r.external_id == some id_)) with
  | .ok m => .ok m
  | .error _ =>
    match db.find? (fun r => r.id == id_) with
    | some m => .ok m
    | none => .error .noneModelError

/-! ## The requests service

Service operations are state-passing over the store (database rows plus the
set of indexed record ids); each returns the new state together with an
`Except` result, so an error leaving the state unchanged is explicit. -/

/-- The persistence/search store backing the requests service: database rows,
the ids present in the search index, and the id counter for fresh records. -/
structure SvcState where
  db : List Request
  idx : List String
  nextId : Nat
  deriving DecidableEq, Repr

/-- Replace the row with the given id (the committed form of the mutation
the Python code performs in place on the loaded record). -/
def updateRow (db : List Request) (id_ : String) (r : Request) : List Request :=
  db.map (fun x => if x.id == id_ then r else x)

/-- A permission table: whether an identity holds a named permission
(`require_permission` raises `PermissionDeniedError` when it does not). -/
def Perms := Identity → String → Bool

/-- `RequestsService.execute_action` (services/requests/service.py): load the
request, check `can_execute_action` (its `NoSuchActionError` propagates), and
when the check comes back false raise a bare `Exception` (the line is marked
`TODO proper exception` in the source); otherwise delegate to
`request.execute_action`.  The successful transition is committed to the
store per the spec's transactional contract. -/
def service_execute_action (reg : Registry) (st : SvcState) (action : String)
    (id_ : String) (i : Identity) : SvcState × Except Err Request :=
  match _get_request st.db id_ with
  | .error e => (st, .error e)
  | .ok r =>
    match Request.can_execute_action reg r action i with
    | .error e => (st, .error e)
    | .ok b =>
      if b then
        match Request.execute_action reg r action i with
        | .error e => (st, .error e)
        | .ok r2 => ({ st with db := updateRow st.db r.id r2 }, .ok r2)
      else (st, .error .genericException)

/-- Modelled from the spec: `request.delete()` performs a logical delete,
setting the `is_deleted` flag and never physically erasing the row; the
record-deletion implementation lives in the external record base class. -/
def recordDelete (r : Request) : Request :=
  { r with is_deleted := true }

/-- `RequestsService.delete` (services/requests/service.py): load the request
via `_get_request`, require the `delete` permission, logically delete the
record, commit, and remove it from the search index. -/
def service_delete (perms : Perms) (st : SvcState) (id_ : String) (i : Identity) :
    SvcState × Except Err Bool :=
  match _get_request st.db id_ with
  | .error e => (st, .error e)
  | .ok r =>
    if perms i "delete" then
      ({ st with
          db := updateRow st.db r.id (recordDelete r)
          idx := st.idx.filter (fun x => x != r.id) }, .ok true)
    else (st, .error (.permissionDeniedError "delete"))

/-! ## The user-moderation workflow -/

/-- `UserModeration.type_id` (customizations/user_moderation). -/
def userModerationTypeId : String := "user-moderation"

/-- Modelled from the spec: the general request state machine declares
`created --submit--> submitted`; the user-moderation action classes are not
among the sources at hand, and the spec leaves the submit action's
identity-authorization unconstrained for this workflow. -/
def submitAction : ActionDescriptor :=
  ⟨[.created], .submitted, fun _ _ => true⟩

/-- Modelled from the spec: `submitted --accept--> accepted` (for
user-moderation, accept approves the topic user in a collaborator system). -/
def acceptAction : ActionDescriptor :=
  ⟨[.submitted], .accepted, fun _ _ => true⟩

/-- Modelled from the spec: `submitted --decline--> declined` (for
user-moderation, decline blocks the topic user in a collaborator system). -/
def declineAction : ActionDescriptor :=
  ⟨[.submitted], .declined, fun _ _ => true⟩

/-- Modelled from the spec: `submitted --cancel--> cancelled`. -/
def cancelAction : ActionDescriptor :=
  ⟨[.submitted], .cancelled, fun _ _ => true⟩

/-- Modelled from the spec: `submitted --expire--> expired`. -/
def expireAction : ActionDescriptor :=
  ⟨[.submitted], .expired, fun _ _ => true⟩

/-- Modelled from the spec: the user-moderation request type with the state
machine's action table. -/
def userModeration : RequestType :=
  ⟨userModerationTypeId,
   [("submit", submitAction), ("accept", acceptAction), ("decline", declineAction),
    ("cancel", cancelAction), ("expire", expireAction)]⟩

/-- The registry as bootstrapped for the moderation workflow. -/
def moderationRegistry : Registry := [(userModerationTypeId, userModeration)]

/-- Modelled from the spec: `ResolverRegistry.resolve_entity_proxy({"user":
topic}).resolve()` resolves the reference to the proxy for that user; the
resolver registry is not among the sources at hand.  The proxy is represented
by the reference it round-trips to. -/
def resolveUserProxy (topicUser : String) : EntityRef :=
  ⟨"user", topicUser⟩

/-- Modelled from the spec: the generic creation path accepting receiver,
creator and topic creates the request in the initial `created` status with a
fresh identifier and persists it (the version of `RequestsService.create` in
the repository's service module predates these parameters). -/
def service_create (st : SvcState) (rt : RequestType) (receiver creator : EntityRef)
    (topic : Option EntityRef) : SvcState × Request :=
  let rid := toString st.nextId
  let r : Request :=
    { id := rid, external_id := some rid, request_type_id := rt.type_id,
      status := .created, created_by := some creator, receiver := some receiver,
      topic := topic, expires_at := none, is_deleted := false }
  ({ db := st.db ++ [r], idx := st.idx ++ [rid], nextId := st.nextId + 1 }, r)

/-- `UserModerationRequestService.moderate` (services/user_moderation/
service.py): require the `moderate` permission of the caller, then delegate
to the requests service's `execute_action` with `system_identity` as the
acting identity. -/
def moderate (perms : Perms) (reg : Registry) (st : SvcState) (i : Identity)
    (request_id action : String) : SvcState × Except Err Request :=
  if perms i "moderate" then
    service_execute_action reg st action request_id system_identity
  else (st, .error (.permissionDeniedError "moderate"))

/-- `UserModerationRequestService.request_moderation` (services/
user_moderation/service.py): require the `request_moderation` permission;
reject any `creator` other than `system_user_id` with `InvalidCreatorError`;
resolve the topic user through the resolver registry; fix the receiver to
`{"user_moderation": system_user_id}`; create the request of the
user-moderation type through the generic creation path; and immediately
execute the `submit` action through the requests service. -/
def request_moderation (perms : Perms) (reg : Registry) (st : SvcState) (i : Identity)
    (creator : String) (topicUser : String) : SvcState × Except Err Request :=
  if perms i "request_moderation" then
    if creator = system_user_id then
      match lookupType reg userModerationTypeId with
      | none => (st, .error (.unknownTypeError userModerationTypeId))
      | some rt =>
        let topicRef := resolveUserProxy topicUser
        let receiver : EntityRef := ⟨"user_moderation", system_user_id⟩
        let creatorRef : EntityRef := ⟨"user_moderation", creator⟩
        let (st1, req) := service_create st rt receiver creatorRef (some topicRef)
        service_execute_action reg st1 "submit" req.id i
    else (st, .error .invalidCreatorError)
  else (st, .error (.permissionDeniedError "request_moderation"))

/-- A per-record permission table for the search collaborator's permission
filter. -/
def RecordPerms := Identity → String → Request → Bool

/-- Modelled from the spec: the search collaborator returns the indexed
records matching the extra filter; when a permission action is given it also
applies the per-record permission filter for the searching identity, and when
it is `None` the permission filter is disabled. -/
def collaborator_search (rperms : RecordPerms) (st : SvcState) (i : Identity)
    (extra_filter : Request → Bool) (permission_action : Option String) : List Request :=
  (st.db.filter (fun r => st.idx.contains r.id)).filter
    (fun r => extra_filter r &&
      match permission_action with
      | none => true
      | some p => rperms i p r)

/-- `UserModerationRequestService.search_moderation_requests` (services/
user_moderation/service.py): require the `search_requests` permission of the
caller, then search as `system_identity` with `permission_action=None` and an
extra filter restricting to requests whose type is the user-moderation
type id. -/
def search_moderation_requests (perms : Perms) (rperms : RecordPerms) (st : SvcState)
    (i : Identity) : Except Err (List Request) :=
  if perms i "search_requests" then
    .ok (collaborator_search rperms st system_identity
      (fun r => r.request_type_id == userModerationTypeId) none)
  else .error (.permissionDeniedError "search_requests")

/-! ## Concrete fixtures used by witnesses -/

/-- A permission table granting everything, for concrete scenarios. -/
def allPerms : Perms := fun _ _ => true

/-- A freshly created user-moderation request, as a concrete fixture. -/
def sampleRequest : Request :=
  { id := "1", external_id := some "1", request_type_id := userModerationTypeId,
    status := .created, created_by := none, receiver := none, topic := none,
    expires_at := none, is_deleted := false }

/-- The same request after submission. -/
def sampleSubmittedRequest : Request :=
  { sampleRequest with status := .submitted }

/-- A store holding the submitted fixture request. -/
def sampleSubmittedState : SvcState :=
  { db := [sampleSubmittedRequest], idx := ["1"], nextId := 2 }

/-! ## Helper lemmas -/

theorem queryOne_mem {l : List Request} {r : Request} (h : queryOne l = .ok r) :
    r ∈ l := by
  cases l with
  | nil => simp [queryOne] at h
  | cons a t =>
    cases t with
    | nil =>
      simp [queryOne] at h
      simp [h]
    | cons b t2 => simp [queryOne] at h

/-! ## Claims -/

/-- C4: `is_expired` is false when `expires_at` is unset; when set, it is true
iff the timezone-normalized instant of `expires_at` is strictly before the
current UTC instant, and the comparison never raises the naive/aware
`TypeError` (the code upgrades `now` to aware UTC exactly when `expires_at`
is aware). -/
theorem is_expired_ok_spec (r : Request) (nowUtc : Int) :
    r.is_expired nowUtc = .ok (isExpiredSpec r nowUtc) := by
  unfold Request.is_expired isExpiredSpec
  cases hd : r.expires_at with
  | none => rfl
  | some d =>
    cases ht : d.tz with
    | none => simp [pyLt, ht, PyDateTime.instant]
    | some off => simp [pyLt, ht, PyDateTime.instant]

/-- C5: on a request of a registered type, `get_action` fails with
`NoSuchActionError` exactly when the action name is not in the type's
`available_actions` table, and otherwise returns the registered action. -/
theorem get_action_spec (reg : Registry) (r : Request) (T : RequestType) (A : String)
    (hT : lookupType reg r.request_type_id = some T) :
    (List.lookup A T.available_actions = none →
      r.get_action reg A = .error (.noSuchActionError A)) ∧
    ∀ a, List.lookup A T.available_actions = some a → r.get_action reg A = .ok a := by
  unfold Request.get_action
  rw [hT]
  dsimp only
  exact ⟨fun h => by rw [h], fun a h => by rw [h]⟩

theorem get_action_spec_witness :
    Request.get_action moderationRegistry sampleRequest "frobnicate"
      = .error (.noSuchActionError "frobnicate") ∧
    Request.get_action moderationRegistry sampleRequest "submit" = .ok submitAction :=
  ⟨(get_action_spec moderationRegistry sampleRequest userModeration "frobnicate" rfl).1 rfl,
   (get_action_spec moderationRegistry sampleRequest userModeration "submit" rfl).2
     submitAction rfl⟩

/-- C6: `can_execute_action` returns exactly
`get_action(name).can_execute(identity)`, and for an unavailable action name
it propagates `NoSuchActionError` instead of returning false. -/
theorem can_execute_action_spec (reg : Registry) (r : Request) (T : RequestType)
    (A : String) (i : Identity) (hT : lookupType reg r.request_type_id = some T) :
    Request.can_execute_action reg r A i
      = (r.get_action reg A).map (fun a => a.can_execute r i) ∧
    (List.lookup A T.available_actions = none →
      Request.can_execute_action reg r A i = .error (.noSuchActionError A)) := by
  constructor
  · rfl
  · intro h
    unfold Request.can_execute_action Request.get_action
    rw [hT]
    dsimp only
    rw [h]
    rfl

theorem can_execute_action_spec_witness :
    Request.can_execute_action moderationRegistry sampleRequest "submit" ⟨"user-7"⟩
      = (Request.get_action moderationRegistry sampleRequest "submit").map
          (fun a => a.can_execute sampleRequest ⟨"user-7"⟩) ∧
    Request.can_execute_action moderationRegistry sampleRequest "frobnicate" ⟨"user-7"⟩
      = .error (.noSuchActionError "frobnicate") :=
  ⟨(can_execute_action_spec moderationRegistry sampleRequest userModeration "submit"
      ⟨"user-7"⟩ rfl).1,
   (can_execute_action_spec moderationRegistry sampleRequest userModeration "frobnicate"
      ⟨"user-7"⟩ rfl).2 rfl⟩

/-- C1: at a request whose status forbids the action (`submit` on an already
submitted request), the service-layer `execute_action` rejects with the bare
`Exception` of its `TODO proper exception` line, which is not
`ActionNotExecutableError`; the aggregate-level `execute_action`, delegating
to the action's own (spec-modelled) `execute`, does fail with
`ActionNotExecutableError`. -/
theorem execute_action_rejection_divergence :
    service_execute_action moderationRegistry sampleSubmittedState "submit" "1" ⟨"user-7"⟩
      = (sampleSubmittedState, .error .genericException) ∧
    Request.execute_action moderationRegistry sampleSubmittedRequest "submit" ⟨"user-7"⟩
      = .error (.actionNotExecutableError "submit") ∧
    Err.genericException ≠ Err.actionNotExecutableError "submit" :=
  ⟨rfl, rfl, by decide⟩

/-- C2: with the caller holding the `request_moderation` permission, any
creator other than the system actor makes `request_moderation` fail with
`InvalidCreatorError`, and the store state comes back unchanged, so no
request is created. -/
theorem request_moderation_invalid_creator (perms : Perms) (reg : Registry)
    (st : SvcState) (i : Identity) (creator topicUser : String)
    (hp : perms i "request_moderation" = true) (hc : creator ≠ system_user_id) :
    request_moderation perms reg st i creator topicUser
      = (st, .error .invalidCreatorError) := by
  unfold request_moderation
  rw [hp]
  simp [hc]

theorem request_moderation_invalid_creator_witness :
    request_moderation allPerms moderationRegistry ⟨[], [], 0⟩ ⟨"moderator"⟩
      "user-7" "user-42" = (⟨[], [], 0⟩, .error .invalidCreatorError) :=
  request_moderation_invalid_creator allPerms moderationRegistry ⟨[], [], 0⟩
    ⟨"moderator"⟩ "user-7" "user-42" rfl (by decide)

/-- C7: `moderate` first requires the caller's `moderate` permission
(rejecting with the permission error and leaving the state unchanged
otherwise), and then delegates to the requests service's `execute_action`
with `system_identity` — not the caller's identity — as the acting
identity. -/
theorem moderate_spec (perms : Perms) (reg : Registry) (st : SvcState) (i : Identity)
    (request_id action : String) :
    (perms i "moderate" = true →
      moderate perms reg st i request_id action
        = service_execute_action reg st action request_id system_identity) ∧
    (perms i "moderate" = false →
      moderate perms reg st i request_id action
        = (st, .error (.permissionDeniedError "moderate"))) := by
  constructor <;> intro h <;> simp [moderate, h]

theorem moderate_spec_witness :
    moderate allPerms moderationRegistry sampleSubmittedState ⟨"mod-1"⟩ "1" "accept"
      = service_execute_action moderationRegistry sampleSubmittedState "accept" "1"
          system_identity :=
  (moderate_spec allPerms moderationRegistry sampleSubmittedState ⟨"mod-1"⟩
    "1" "accept").1 rfl

/-- C8: for any two caller identities passing the `search_requests`
permission check — and even under different per-record permission tables —
`search_moderation_requests` returns the same outcome, because the underlying
search runs as `system_identity` with the permission filter disabled; and
every returned request is of the user-moderation type. -/
theorem search_moderation_requests_spec (perms : Perms) (rp1 rp2 : RecordPerms)
    (st : SvcState) (i1 i2 : Identity)
    (h1 : perms i1 "search_requests" = true)
    (h2 : perms i2 "search_requests" = true) :
    search_moderation_requests perms rp1 st i1
      = search_moderation_requests perms rp2 st i2 ∧
    ∀ l, search_moderation_requests perms rp1 st i1 = .ok l →
      ∀ r ∈ l, r.request_type_id = userModerationTypeId := by
  unfold search_moderation_requests collaborator_search
  rw [h1, h2]
  constructor
  · simp
  · intro l hl r hr
    simp only [if_pos] at hl
    cases hl
    simp only [List.mem_filter] at hr
    have h3 := hr.2
    simp at h3
    exact h3

theorem search_moderation_requests_spec_witness :
    search_moderation_requests allPerms (fun _ _ _ => true) sampleSubmittedState ⟨"a"⟩
      = search_moderation_requests allPerms (fun _ _ _ => false) sampleSubmittedState ⟨"b"⟩ ∧
    ∀ l, search_moderation_requests allPerms (fun _ _ _ => true) sampleSubmittedState ⟨"a"⟩
        = .ok l → ∀ r ∈ l, r.request_type_id = userModerationTypeId :=
  search_moderation_requests_spec allPerms (fun _ _ _ => true) (fun _ _ _ => false)
    sampleSubmittedState ⟨"a"⟩ ⟨"b"⟩ rfl rfl

theorem filter_ext_eq_nil (db : List Request) (key : String)
    (hf : ∀ r ∈ db, r.external_id ≠ some key) :
    db.filter (fun r => r.external_id == some key) = [] := by
  rw [List.filter_eq_nil_iff]
  intro r hr
  simp [hf r hr]

theorem get_request_append (db : List Request) (key : String) (r : Request)
    (hf : ∀ x ∈ db, x.external_id ≠ some key) (hr : r.external_id = some key) :
    _get_request (db ++ [r]) key = .ok r := by
  unfold _get_request
  rw [List.filter_append, filter_ext_eq_nil db key hf]
  simp [queryOne, hr]

theorem service_execute_submit (st1 : SvcState) (i : Identity) (rid : String)
    (newR : Request)
    (hget : _get_request st1.db rid = .ok newR)
    (htype : newR.request_type_id = userModerationTypeId)
    (hstatus : newR.status = .created) :
    service_execute_action moderationRegistry st1 "submit" rid i
      = ({ st1 with
            db := updateRow st1.db newR.id { newR with status := .submitted } },
         .ok { newR with status := .submitted }) := by
  have hga : Request.get_action moderationRegistry newR "submit" = .ok submitAction := by
    unfold Request.get_action lookupType
    rw [htype]
    rfl
  have hce : Request.can_execute_action moderationRegistry newR "submit" i = .ok true := by
    unfold Request.can_execute_action
    rw [hga]
    simp [Except.map, ActionDescriptor.can_execute, submitAction, hstatus]
  have hex : Request.execute_action moderationRegistry newR "submit" i
      = .ok { newR with status := .submitted } := by
    unfold Request.execute_action
    rw [hga]
    simp [Except.bind, ActionDescriptor.execute, ActionDescriptor.can_execute,
      submitAction, hstatus]
  unfold service_execute_action
  rw [hget]
  dsimp only
  rw [hce]
  dsimp only
  rw [if_pos rfl, hex]

/-- The request record as created by the moderation workflow's creation
step: user-moderation type, `created` status, receiver and creator fixed to
the `user_moderation` system actor, topic resolved to the user proxy. -/
def createdModerationRequest (n : Nat) (topicUser : String) : Request :=
  { id := toString n, external_id := some (toString n),
    request_type_id := userModerationTypeId, status := .created,
    created_by := some ⟨"user_moderation", system_user_id⟩,
    receiver := some ⟨"user_moderation", system_user_id⟩,
    topic := some (resolveUserProxy topicUser), expires_at := none,
    is_deleted := false }

/-- The same record right after the immediate `submit`. -/
def moderationRequestRecord (n : Nat) (topicUser : String) : Request :=
  { createdModerationRequest n topicUser with status := .submitted }

/-- C3: with the system actor as creator, `request_moderation` resolves the
topic user to its proxy, fixes the receiver to the `user_moderation` system
actor, creates a request of the user-moderation type and immediately executes
`submit` on it, so the caller gets back a request in `submitted` status (the
`created`-status record is never returned) and the stored row is the
submitted one. -/
theorem request_moderation_submits (perms : Perms) (st : SvcState) (i : Identity)
    (topicUser : String)
    (hp : perms i "request_moderation" = true)
    (hf : ∀ r ∈ st.db, r.external_id ≠ some (toString st.nextId)) :
    ∃ st2 : SvcState,
      request_moderation perms moderationRegistry st i system_user_id topicUser
        = (st2, .ok (moderationRequestRecord st.nextId topicUser))
      ∧ moderationRequestRecord st.nextId topicUser ∈ st2.db
      ∧ (moderationRequestRecord st.nextId topicUser).status = .submitted
      ∧ (moderationRequestRecord st.nextId topicUser).topic
          = some (resolveUserProxy topicUser)
      ∧ (moderationRequestRecord st.nextId topicUser).receiver
          = some ⟨"user_moderation", system_user_id⟩
      ∧ (moderationRequestRecord st.nextId topicUser).request_type_id
          = userModerationTypeId := by
  have hget : _get_request (st.db ++ [createdModerationRequest st.nextId topicUser])
      (toString st.nextId) = .ok (createdModerationRequest st.nextId topicUser) :=
    get_request_append st.db (toString st.nextId)
      (createdModerationRequest st.nextId topicUser) hf rfl
  have hrun := service_execute_submit
    { db := st.db ++ [createdModerationRequest st.nextId topicUser],
      idx := st.idx ++ [toString st.nextId], nextId := st.nextId + 1 }
    i (toString st.nextId) (createdModerationRequest st.nextId topicUser)
    hget rfl rfl
  refine ⟨{ db := updateRow (st.db ++ [createdModerationRequest st.nextId topicUser])
              (createdModerationRequest st.nextId topicUser).id
              (moderationRequestRecord st.nextId topicUser),
            idx := st.idx ++ [toString st.nextId], nextId := st.nextId + 1 },
          ?_, ?_, rfl, rfl, rfl, rfl⟩
  · unfold request_moderation
    rw [hp]
    rw [if_pos rfl, if_pos rfl]
    have hlook : lookupType moderationRegistry userModerationTypeId
        = some userModeration := rfl
    rw [hlook]
    dsimp only [service_create]
    exact hrun
  · simp [updateRow, moderationRequestRecord]

theorem request_moderation_submits_witness :
    ∃ st2 : SvcState,
      request_moderation allPerms moderationRegistry ⟨[], [], 0⟩ ⟨"moderator"⟩
          system_user_id "user-42"
        = (st2, .ok (moderationRequestRecord 0 "user-42"))
      ∧ moderationRequestRecord 0 "user-42" ∈ st2.db
      ∧ (moderationRequestRecord 0 "user-42").status = .submitted
      ∧ (moderationRequestRecord 0 "user-42").topic = some (resolveUserProxy "user-42")
      ∧ (moderationRequestRecord 0 "user-42").receiver
          = some ⟨"user_moderation", system_user_id⟩
      ∧ (moderationRequestRecord 0 "user-42").request_type_id = userModerationTypeId :=
  request_moderation_submits allPerms ⟨[], [], 0⟩ ⟨"moderator"⟩ "user-42" rfl
    (by simp)

theorem mem_extQuery_not_deleted {db : List Request} {key : String} {x : Request}
    (hx : x ∈ extQuery db key false) : x.is_deleted = false := by
  unfold extQuery at hx
  simp [List.mem_filter] at hx
  exact hx.2.1

theorem mem_intQuery_not_deleted {db : List Request} {key : String} {x : Request}
    (hx : x ∈ intQuery db key false) : x.is_deleted = false := by
  unfold intQuery at hx
  simp [List.mem_filter] at hx
  exact hx.2.1

theorem get_record_default_not_deleted (db : List Request) (key : String) (x : Request)
    (h : Request.get_record db key false = .ok x) : x.is_deleted = false := by
  unfold Request.get_record at h
  cases hq : queryOne (extQuery db key false) with
  | ok m =>
    rw [hq] at h
    cases h
    exact mem_extQuery_not_deleted (queryOne_mem hq)
  | error e =>
    rw [hq] at h
    exact mem_intQuery_not_deleted (queryOne_mem h)

theorem filter_ext_decomp (dbA dbB : List Request) (r : Request) (key : String)
    (hA : ∀ x ∈ dbA, x.external_id ≠ some key)
    (hB : ∀ x ∈ dbB, x.external_id ≠ some key)
    (hr : r.external_id = some key) :
    (dbA ++ r :: dbB).filter (fun x => x.external_id == some key) = [r] := by
  rw [List.filter_append, filter_ext_eq_nil dbA key hA]
  simp [List.filter_cons, hr, filter_ext_eq_nil dbB key hB]

theorem map_update_id (db : List Request) (rid : String) (r2 : Request)
    (h : ∀ x ∈ db, x.id ≠ rid) :
    db.map (fun x => if x.id == rid then r2 else x) = db := by
  induction db with
  | nil => rfl
  | cons a t ih =>
    have ha : (a.id == rid) = false := by
      simp [h a (List.mem_cons_self a t)]
    rw [List.map_cons, ih (fun x hx => h x (List.mem_cons_of_mem a hx)), ha]
    simp

theorem updateRow_decomp (dbA dbB : List Request) (r r2 : Request)
    (hA : ∀ x ∈ dbA, x.id ≠ r.id) (hB : ∀ x ∈ dbB, x.id ≠ r.id) :
    updateRow (dbA ++ r :: dbB) r.id r2 = dbA ++ r2 :: dbB := by
  unfold updateRow
  rw [List.map_append, map_update_id dbA r.id r2 hA, List.map_cons,
    map_update_id dbB r.id r2 hB]
  simp

/-- C9: deleting through the service is logical: the targeted row (uniquely
keyed by its external id and internal id) is replaced by its `is_deleted`
flagged copy and removed from the search index, the database keeps the same
number of rows, a default `get_record` lookup can only return non-deleted
records, and `get_record` with `with_deleted` still returns the flagged
row. -/
theorem logical_delete_spec (perms : Perms) (st : SvcState) (i : Identity)
    (r : Request) (key : String) (dbA dbB : List Request)
    (hdb : st.db = dbA ++ r :: dbB)
    (hperm : perms i "delete" = true)
    (hext : r.external_id = some key)
    (hA : ∀ x ∈ dbA, x.external_id ≠ some key ∧ x.id ≠ r.id)
    (hB : ∀ x ∈ dbB, x.external_id ≠ some key ∧ x.id ≠ r.id) :
    service_delete perms st key i
      = ({ st with
            db := (dbA ++ recordDelete r :: dbB)
            idx := st.idx.filter (fun x => x != r.id) }, .ok true)
    ∧ (dbA ++ recordDelete r :: dbB).length = st.db.length
    ∧ recordDelete r ∈ dbA ++ recordDelete r :: dbB
    ∧ r.id ∉ st.idx.filter (fun x => x != r.id)
    ∧ (∀ key2 x, Request.get_record (dbA ++ recordDelete r :: dbB) key2 false = .ok x →
        x.is_deleted = false)
    ∧ Request.get_record (dbA ++ recordDelete r :: dbB) key true
        = .ok (recordDelete r) := by
  have hget : _get_request st.db key = .ok r := by
    unfold _get_request
    rw [hdb, filter_ext_decomp dbA dbB r key (fun x hx => (hA x hx).1)
      (fun x hx => (hB x hx).1) hext]
    rfl
  refine ⟨?_, ?_, ?_, ?_, ?_, ?_⟩
  · unfold service_delete
    rw [hget]
    dsimp only
    rw [hperm]
    rw [if_pos rfl]
    rw [hdb, updateRow_decomp dbA dbB r (recordDelete r)
      (fun x hx => (hA x hx).2) (fun x hx => (hB x hx).2)]
  · rw [hdb]
    simp
  · exact List.mem_append_right _ (List.mem_cons_self _ _)
  · simp
  · exact fun key2 x h => get_record_default_not_deleted _ key2 x h
  · unfold Request.get_record
    have hfilter : (dbA ++ recordDelete r :: dbB).filter
        (fun x => x.external_id == some key) = [recordDelete r] :=
      filter_ext_decomp dbA dbB (recordDelete r) key (fun x hx => (hA x hx).1)
        (fun x hx => (hB x hx).1) hext
    unfold extQuery
    rw [if_pos rfl, hfilter]
    rfl

/-- A store with a single live request, used for the delete scenario. -/
def sampleDeleteState : SvcState := { db := [sampleRequest], idx := ["1"], nextId := 2 }

theorem logical_delete_spec_witness :
    service_delete allPerms sampleDeleteState "1" ⟨"admin"⟩
      = ({ sampleDeleteState with
            db := ([] ++ recordDelete sampleRequest :: [])
            idx := sampleDeleteState.idx.filter (fun x => x != sampleRequest.id) },
         .ok true)
    ∧ Request.get_record ([] ++ recordDelete sampleRequest :: []) "1" true
        = .ok (recordDelete sampleRequest) :=
  ⟨(logical_delete_spec allPerms sampleDeleteState ⟨"admin"⟩ sampleRequest "1" [] []
      rfl rfl rfl (by simp) (by simp)).1,
   (logical_delete_spec allPerms sampleDeleteState ⟨"admin"⟩ sampleRequest "1" [] []
      rfl rfl rfl (by simp) (by simp)).2.2.2.2.2⟩

/-- C10: `get_record` first queries by external id: when that query matches
exactly one row the row is returned, and exactly when it matches no row or
several (as when stored external ids are absent) the lookup falls back to the
internal primary-key query; with `with_deleted = false` both query paths only
ever contain non-deleted rows. -/
theorem get_record_fallback_spec (db : List Request) (id_ : String) (wd : Bool) :
    (∀ r, extQuery db id_ wd = [r] → Request.get_record db id_ wd = .ok r)
    ∧ (extQuery db id_ wd = [] ∨ 2 ≤ (extQuery db id_ wd).length →
        Request.get_record db id_ wd = queryOne (intQuery db id_ wd))
    ∧ (wd = false → ∀ r ∈ extQuery db id_ wd, r.is_deleted = false)
    ∧ (wd = false → ∀ r ∈ intQuery db id_ wd, r.is_deleted = false) := by
  refine ⟨?_, ?_, ?_, ?_⟩
  · intro r h
    unfold Request.get_record
    rw [h]
    rfl
  · intro h
    unfold Request.get_record
    rcases h with h | h
    · rw [h]
      rfl
    · cases hq : extQuery db id_ wd with
      | nil => rfl
      | cons a t =>
        cases t with
        | nil =>
          rw [hq] at h
          simp at h
        | cons b t2 => rfl
  · intro hwd r hr
    subst hwd
    exact mem_extQuery_not_deleted hr
  · intro hwd r hr
    subst hwd
    exact mem_intQuery_not_deleted hr

/-- A request stored without an external id, retrievable only by its
internal id. -/
def noExtRequest : Request :=
  { id := "42", external_id := none, request_type_id := userModerationTypeId,
    status := .created, created_by := none, receiver := none, topic := none,
    expires_at := none, is_deleted := false }

theorem get_record_fallback_spec_witness :
    Request.get_record [noExtRequest] "42" false
      = queryOne (intQuery [noExtRequest] "42" false) :=
  (get_record_fallback_spec [noExtRequest] "42" false).2.1 (Or.inl rfl)

end InvenioRequests
